import Mathlib

/-!
Shallow embedding of the CloverQuery card-expiration core
(`app/lib/card-expiration-analyzer.ts`, the `/api/customers` loader and the
`customers` / `customers.print` route filters), together with proofs of the
specification claims about it.

Modelling conventions
* Machine numbers (JS doubles holding integral millisecond timestamps and day
  counts) are modelled as `Int`; `NaN` is modelled as the `none` case of
  `Option Int` and every JS comparison involving `NaN` evaluates to `false`.
* A JS `Date` value is modelled by its timezone-free day number since the Unix
  epoch (`Option Int`, where `none` models an Invalid Date); `getTime()` is
  `days * msPerDay`.  The repository constructs dates with
  `new Date(year, month, day)` and date-only ISO strings, both midnight, so a
  uniform 86_400_000&nbsp;ms day with no DST is the faithful rendering of the
  arithmetic the code performs.
* JS strings reaching the codec are modelled as `List Char`; `.length`,
  `.substring(0,2)` and `.substring(2,4)` on a 4-character code are exactly
  list length / `take` / `drop`.
-/

namespace CloverQuery

/-- Milliseconds per day, the constant `1000 * 3600 * 24` of the source. -/
def msPerDay : Int := 86400000

/-- `Math.ceil (a / b)` for integral `a` and positive integral `b`:
JS divides exactly (doubles) and takes the ceiling; over `Int` this is
`-((-a) / b)` with `/` the floor division (floor = Euclidean for `b > 0`). -/
def jsCeilDiv (a b : Int) : Int := -((-a) / b)

/-- `Math.floor (a / b)` for integral `a` and positive integral `b`. -/
def jsFloorDiv (a b : Int) : Int := a / b

/-- The decimal-digit test of `parseInt` with radix 10: code points 48–57. -/
def isJsDigit (c : Char) : Bool := 48 ≤ c.toNat && c.toNat ≤ 57

/-- ECMAScript `StrWhiteSpaceChar` (the characters `parseInt` and `trim`
skip): TAB LF VT FF CR, the line separators U+2028/U+2029, U+FEFF, and every
`Space_Separator` code point — SPACE, NBSP, U+1680, U+2000–U+200A, U+202F,
U+205F and U+3000. -/
def isJsSpace (c : Char) : Bool :=
  c.toNat == 9 || c.toNat == 10 || c.toNat == 11 || c.toNat == 12 || c.toNat == 13 ||
    c.toNat == 32 || c.toNat == 160 || c.toNat == 5760 ||
    (8192 ≤ c.toNat && c.toNat ≤ 8202) ||
    c.toNat == 8232 || c.toNat == 8233 || c.toNat == 8239 || c.toNat == 8287 ||
    c.toNat == 12288 || c.toNat == 65279

/-- `String.prototype.trim()`: strip ECMAScript whitespace from both ends
(computable by structural recursion, unlike the library trim). -/
def jsTrim (s : String) : String :=
  ⟨((s.data.dropWhile isJsSpace).reverse.dropWhile isJsSpace).reverse⟩

/-- Longest decimal-digit prefix of a character list, as a number;
`none` when the list does not start with a digit (`parseInt` yields `NaN`). -/
def digitsVal : List Char → Option Nat → Option Nat
  | [], acc => acc
  | c :: cs, acc =>
    if isJsDigit c then digitsVal cs (some ((acc.getD 0) * 10 + (c.toNat - 48)))
    else acc

/-- `parseInt(s, 10)`: skip whitespace, optional sign, longest digit prefix;
`none` models `NaN`. -/
def jsParseInt (s : List Char) : Option Int :=
  match s.dropWhile isJsSpace with
  | [] => none
  | c :: rest =>
    if c = '-' then (digitsVal rest none).map (fun n => -(n : Int))
    else if c = '+' then (digitsVal rest none).map (fun n => (n : Int))
    else (digitsVal (c :: rest) none).map (fun n => (n : Int))

/-! ### Proleptic-Gregorian calendar arithmetic

`daysFromCivil` / `civilFromDays` convert between a civil date (`year`,
`month 1–12`, `day`) and its day number since 1970-01-01, exactly the
arithmetic ECMAScript `Date` performs (MakeDay / date decomposition). -/

/-- Gregorian leap-year rule used by `Date`. -/
def isLeap (y : Int) : Bool := (y % 4 == 0 && y % 100 != 0) || (y % 400 == 0)

/-- Day number since the epoch of civil date `(y, m, d)` with `1 ≤ m ≤ 12`. -/
def daysFromCivil (y m d : Int) : Int :=
  let y' := if m ≤ 2 then y - 1 else y
  let era := y' / 400
  let yoe := y' - era * 400
  let doy := (153 * (if m > 2 then m - 3 else m + 9) + 2) / 5 + d - 1
  let doe := yoe * 365 + yoe / 4 - yoe / 100 + doy
  era * 146097 + doe - 719468

/-- Civil date `(year, month 1–12, day)` of an epoch day number. -/
def civilFromDays (z0 : Int) : Int × Int × Int :=
  let z := z0 + 719468
  let era := z / 146097
  let doe := z - era * 146097
  let yoe := (doe - doe / 1460 + doe / 36524 - doe / 146096) / 365
  let y := yoe + era * 400
  let doy := doe - (365 * yoe + yoe / 4 - yoe / 100)
  let mp := (5 * doy + 2) / 153
  let d := doy - (153 * mp + 2) / 5 + 1
  let m := if mp < 10 then mp + 3 else mp - 9
  (if m ≤ 2 then y + 1 else y, m, d)

/-- `new Date(year, monthIndex, day)` (0-based `monthIndex`, both arguments
unbounded) as an epoch day number: ECMAScript MakeDay normalises the month
with floor-division/positive-modulo into the year and then offsets the day. -/
def jsDateDays (y monthIdx day : Int) : Int :=
  let ym := y * 12 + monthIdx
  daysFromCivil (ym / 12) (ym % 12 + 1) 1 + (day - 1)

/-- `.getDate()` of a (valid) date: the day-of-month component. -/
def jsGetDate (days : Int) : Int := (civilFromDays days).2.2

/-! ### `CardExpirationAnalyzer` (`app/lib/card-expiration-analyzer.ts`) -/

/-- A raw card record as the analyzer sees it (unused payload fields elided
to the ones any analysed code path reads). -/
structure Card where
  first6 : Option String
  last4 : Option String
  expirationDate : Option (List Char)
  deriving Repr, DecidableEq

/-- The `cards` field of a raw customer: a flat array, the Clover nested
`{ elements: [...] }` shape, or absent (`null`/`undefined`). -/
inductive CardsField where
  | flat (cards : List Card)
  | nested (elements : List Card)
  | absent
  deriving Repr, DecidableEq

/-- A raw customer record (fields the analysed code paths read). -/
structure Customer where
  businessName : Option String
  customerSince : Option Int
  createdTime : Option Int
  cards : CardsField
  deriving Repr, DecidableEq

/-- `ExpirationStatus['status']`. -/
inductive ExpStatus where
  | expired
  | expiringSoon
  | expiringLater
  | valid
  deriving Repr, DecidableEq

/-- `ExpirationStatus['warningLevel']`. -/
inductive WarningLevel where
  | critical
  | warning
  | info
  | wlNone
  deriving Repr, DecidableEq

/-- The `ExpirationStatus` output record.  `daysUntilExpiration` is `none`
when the JS value is `NaN`; `expirationDate` is `none` for an Invalid Date. -/
structure ExpirationStatus where
  status : ExpStatus
  daysUntilExpiration : Option Int
  expirationDate : Option Int
  warningLevel : WarningLevel
  deriving Repr, DecidableEq

/-- `getLastDayOfMonth(year, month)`:
`new Date(year, month, 0).getDate()` of the source. -/
def getLastDayOfMonth (year month : Int) : Int := jsGetDate (jsDateDays year month 0)

/-- `parseExpirationDate(expirationDate)`.
`none` is the JS `null` return (missing code, or length ≠ 4, the only checks
the source makes); `some none` is an Invalid Date, which arises exactly when
`parseInt` yields `NaN` for the month or year field ­— `NaN` then flows through
`getLastDayOfMonth` and `new Date`, whose result is Invalid; with both fields
numeric the source builds
`new Date(year, month - 1, getLastDayOfMonth(year, month))`.
A JS empty string is falsy, so the `!expirationDate` guard also sends `""` to
`null`; the length test subsumes that case here. -/
def parseExpirationDate (expirationDate : Option (List Char)) : Option (Option Int) :=
  match expirationDate with
  | none => none
  | some s =>
    if s.length ≠ 4 then none
    else
      match jsParseInt (s.take 2), jsParseInt (s.drop 2) with
      | some month, some y2 =>
        let year := y2 + 2000
        some (some (jsDateDays year (month - 1) (getLastDayOfMonth year month)))
      | _, _ => some none

/-- `getDaysUntilExpiration(expirationDate)` with the reference instant `now`
(the source reads `new Date()`; we pass its value `nowMs` explicitly):
`Math.ceil((exp.getTime() - now.getTime()) / msPerDay)`; `NaN` in, `NaN` out. -/
def getDaysUntilExpiration (expirationDate : Option Int) (nowMs : Int) : Option Int :=
  expirationDate.map (fun d => jsCeilDiv (d * msPerDay - nowMs) msPerDay)

/-- `analyzeCardExpiration(expirationDate)` at reference instant `nowMs`.
The JS `NaN` day count fails every `<`/`≤` comparison, so an Invalid Date
lands in the final `valid` branch; nothing in the body can throw, so the
`catch` arm of the source is dead code and has no counterpart here. -/
def analyzeCardExpiration (expirationDate : Option (List Char)) (nowMs : Int) :
    Option ExpirationStatus :=
  match parseExpirationDate expirationDate with
  | none => none
  | some expDate =>
    match getDaysUntilExpiration expDate nowMs with
    | none => some ⟨.valid, none, expDate, .wlNone⟩
    | some d =>
      if d < 0 then some ⟨.expired, some d, expDate, .critical⟩
      else if d ≤ 30 then some ⟨.expiringSoon, some d, expDate, .critical⟩
      else if d ≤ 90 then some ⟨.expiringLater, some d, expDate, .warning⟩
      else some ⟨.valid, some d, expDate, .wlNone⟩

/-- A customer annotated with its per-card classifications
(`CustomerWithExpiration`; each entry is the `{ card, expiration }` pair). -/
structure CustomerWithExpiration where
  customer : Customer
  expirationAnalysis : List (Card × ExpirationStatus)
  deriving Repr, DecidableEq

/-- The card list `analyzeCustomers` iterates: a flat array as-is, the
nested Clover shape through `.elements`, anything else as `[]`. -/
def cardsOf : CardsField → List Card
  | .flat cards => cards
  | .nested elements => elements
  | .absent => []

/-- The fallback record substituted for `analyzeCardExpiration` returning
`null`: status `valid`, `999999` days, expiration `2099-12-31`
(a date-only ISO string, i.e. that day's midnight). -/
def noExpirationFallback : ExpirationStatus :=
  ⟨.valid, some 999999, some (daysFromCivil 2099 12 31), .wlNone⟩

/-- `analyzeCustomers(customers)` at reference instant `nowMs`. -/
def analyzeCustomers (customers : List Customer) (nowMs : Int) :
    List CustomerWithExpiration :=
  customers.map fun c =>
    ⟨c, (cardsOf c.cards).map fun card =>
      (card, (analyzeCardExpiration card.expirationDate nowMs).getD noExpirationFallback)⟩

/-- `filterByStatus(customers, statuses)`. -/
def filterByStatus (customers : List CustomerWithExpiration)
    (statuses : List ExpStatus) : List CustomerWithExpiration :=
  customers.filter fun c =>
    c.expirationAnalysis.any fun analysis => statuses.contains analysis.2.status

/-- `getExpiredCards(customers)`. -/
def getExpiredCards (customers : List CustomerWithExpiration) : List CustomerWithExpiration :=
  filterByStatus customers [.expired]

/-- `getExpiringSoonCards(customers)`. -/
def getExpiringSoonCards (customers : List CustomerWithExpiration) : List CustomerWithExpiration :=
  filterByStatus customers [.expiringSoon]

/-- `getExpiringLaterCards(customers)`. -/
def getExpiringLaterCards (customers : List CustomerWithExpiration) : List CustomerWithExpiration :=
  filterByStatus customers [.expiringLater]

/-- One `{ customers, cards }` bucket of the summary. -/
structure StatusBucket where
  customers : Nat
  cards : Nat
  deriving Repr, DecidableEq

/-- The result shape of `generateSummary`. -/
structure Summary where
  totalCustomers : Nat
  totalCards : Nat
  expired : StatusBucket
  expiringSoon : StatusBucket
  expiringLater : StatusBucket
  deriving Repr, DecidableEq

/-- The `totalCards` reducer counts `customer.cards` only when
`Array.isArray(customer.cards)` holds, i.e. only the flat shape. -/
def flatCardCount : CardsField → Nat
  | .flat cards => cards.length
  | _ => 0

/-- `generateSummary(customers)`. -/
def generateSummary (customers : List CustomerWithExpiration) : Summary :=
  let bucket := fun (l : List CustomerWithExpiration) =>
    StatusBucket.mk l.length (l.map (fun c => c.expirationAnalysis.length)).sum
  { totalCustomers := customers.length
    totalCards := (customers.map (fun c => flatCardCount c.customer.cards)).sum
    expired := bucket (getExpiredCards customers)
    expiringSoon := bucket (getExpiringSoonCards customers)
    expiringLater := bucket (getExpiringLaterCards customers) }

/-! ### `ClientStatusAnalyzer` (`app/lib/card-expiration-analyzer.ts`) -/

/-- `ClientStatus['status']`. -/
inductive ClientStatusTag where
  | newNeedsPayment
  | expiredCards
  | expiringCards
  | allGood
  | inactiveOld
  deriving Repr, DecidableEq

/-- `ClientStatus['priority']`. -/
inductive Priority where
  | critical
  | high
  | medium
  | low
  | prNone
  deriving Repr, DecidableEq

/-- The `ClientStatus` output record (the human-readable `actionMessage`
string carries no logic and is elided). -/
structure ClientStatus where
  status : ClientStatusTag
  priority : Priority
  daysOld : Int
  hasCards : Bool
  requiresAction : Bool
  deriving Repr, DecidableEq

/-- `getDaysSinceCreated(createdTime)` at reference instant `nowMs`:
`Math.floor((now - created) / msPerDay)`. -/
def getDaysSinceCreated (createdTime nowMs : Int) : Int :=
  jsFloorDiv (nowMs - createdTime) msPerDay

/-- `hasPaymentMethods(customer)`: a non-empty flat array or a nested shape
with non-empty `elements`. -/
def hasPaymentMethods (c : Customer) : Bool :=
  match c.cards with
  | .flat cards => cards.length > 0
  | .nested elements => elements.length > 0
  | .absent => false

/-- The JS expression `customer.createdTime || customer.customerSince`,
kept only through the two uses the source makes of it: the `!createdTime`
truthiness test and (when truthy) its numeric value.  A present value of `0`
is falsy and therefore behaves as absent. -/
def jsOrTimestamp (a b : Option Int) : Option Int :=
  match a with
  | some t => if t ≠ 0 then some t else (match b with
    | some u => if u ≠ 0 then some u else none
    | none => none)
  | none => match b with
    | some u => if u ≠ 0 then some u else none
    | none => none

/-- The tail of the `analyzeClientStatus` cascade after the card checks
(rules on customer age and card presence). -/
def clientStatusAgeRules (daysOld : Int) (hasCards : Bool) : ClientStatus :=
  if !hasCards && daysOld ≤ 180 then
    ⟨.newNeedsPayment, .high, daysOld, hasCards, true⟩
  else if !hasCards && daysOld > 365 then
    ⟨.inactiveOld, .prNone, daysOld, hasCards, false⟩
  else if !hasCards then
    ⟨.inactiveOld, .low, daysOld, hasCards, false⟩
  else
    ⟨.allGood, .prNone, daysOld, hasCards, false⟩

/-- `analyzeClientStatus(customer, expirationAnalysis?)` at reference instant
`nowMs`.  `expirationAnalysis` is the optional array of `{ card, expiration }`
records; in JS even an empty array is truthy, hence the `isSome` test. -/
def analyzeClientStatus (c : Customer)
    (expirationAnalysis : Option (List (Card × ExpirationStatus))) (nowMs : Int) :
    ClientStatus :=
  let hasCards := hasPaymentMethods c
  match jsOrTimestamp c.createdTime c.customerSince with
  | none =>
    ⟨if hasCards then .allGood else .inactiveOld, .prNone, 999, hasCards, false⟩
  | some createdTime =>
    let daysOld := getDaysSinceCreated createdTime nowMs
    match expirationAnalysis with
    | some ea =>
      if hasCards && ea.any (fun analysis => analysis.2.status == .expired) then
        ⟨.expiredCards, .critical, daysOld, hasCards, true⟩
      else if hasCards && ea.any (fun analysis => analysis.2.status == .expiringSoon) then
        ⟨.expiringCards, .high, daysOld, hasCards, true⟩
      else clientStatusAgeRules daysOld hasCards
    | none => clientStatusAgeRules daysOld hasCards

/-- A customer annotated with its Policy B status (`CustomerWithStatus`). -/
structure CustomerWithStatus where
  customer : Customer
  expirationAnalysis : Option (List (Card × ExpirationStatus))
  clientStatus : ClientStatus
  deriving Repr, DecidableEq

/-- `analyzeCustomersWithStatus(customersWithExpiration)` at `nowMs`. -/
def analyzeCustomersWithStatus
    (customers : List (Customer × Option (List (Card × ExpirationStatus))))
    (nowMs : Int) : List CustomerWithStatus :=
  customers.map fun c => ⟨c.1, c.2, analyzeClientStatus c.1 c.2 nowMs⟩

/-- `getCustomersRequiringAction(customers)`. -/
def getCustomersRequiringAction (customers : List CustomerWithStatus) :
    List CustomerWithStatus :=
  customers.filter fun c => c.clientStatus.requiresAction

/-! ### Route layer: `/api/customers` payload and the two customer views
(`app/routes/customers.tsx`, `app/routes/customers.print.tsx`) -/

/-- One entry of the `cardAnalysis` array the `/api/customers` loader builds:
`{ card, status, daysUntil }`.  `status` is kept as the literal JS string.
The routes receive this record through a JSON response, where the loader's
`NaN` day count (possible for a malformed stored code) serialises to `null`;
`daysUntil` is therefore `Option Int` with `none` = `null`, and in the JS
comparisons below `null` coerces to `0`. -/
structure CardAnalysis where
  card : Card
  status : String
  daysUntil : Option Int
  deriving Repr, DecidableEq

/-- The customer record the routes consume (fields the filters read).
`hasExpired`, `hasExpiringSoon` and `totalCards` are stored fields of the
payload; `mkApiCustomer` builds them the way the loader does. -/
structure ApiCustomer where
  businessName : Option String
  customerSince : Option Int
  cards : List CardAnalysis
  hasExpired : Bool
  hasExpiringSoon : Bool
  totalCards : Nat
  deriving Repr, DecidableEq

/-- The `/api/customers` loader's per-customer assembly
(`customers.print.tsx`, `customersWithAnalysis`): `cards` is the analysis
array, `hasExpired`/`hasExpiringSoon` are `some(...)` scans of it, and
`totalCards` is the raw card count — which equals the analysis length, the
analysis being a `map` over the raw cards. -/
def mkApiCustomer (businessName : Option String) (customerSince : Option Int)
    (cardAnalysis : List CardAnalysis) : ApiCustomer :=
  { businessName := businessName
    customerSince := customerSince
    cards := cardAnalysis
    hasExpired := cardAnalysis.any fun c => c.status == "expired"
    hasExpiringSoon := cardAnalysis.any fun c => c.status == "expiring-soon"
    totalCards := cardAnalysis.length }

/-- `new Date('2025-07-21').getTime()`: the fixed cleanup cutoff of the
`action-required` filter (date-only ISO string, UTC midnight). -/
def cleanupDateMs : Int := daysFromCivil 2025 7 21 * msPerDay

/-- `Math.abs(x) <= bound` on a JSON number-or-null: `null` coerces to `0`. -/
def jsAbsLe (x : Option Int) (bound : Int) : Bool := |x.getD 0| ≤ bound

/-- The `action-required` predicate of `categorizedCustomers.actionRequired`
(`customers.tsx`; `customers.print.tsx` repeats it verbatim), evaluated at
reference instant `nowMs` (`Date.now()`):
non-blank business name, and new-customer window (cleanup cutoff without
cards, 90 days with cards) or an expiring-soon card or an expired card at
most 180 days overdue.  A `customerSince` of `0` is falsy in the JS guard. -/
def actionRequiredPred (c : ApiCustomer) (nowMs : Int) : Bool :=
  match c.businessName with
  | none => false
  | some bn =>
    if jsTrim bn == "" then false
    else
      let threeMonthsAgo := nowMs - 90 * msPerDay
      let hasCards := c.totalCards > 0
      let isNewCustomer :=
        match c.customerSince with
        | some t =>
          t ≠ 0 && (if hasCards then t ≥ threeMonthsAgo else t ≥ cleanupDateMs)
        | none => false
      let hasRecentlyExpired :=
        c.cards.any fun card => card.status == "expired" && jsAbsLe card.daysUntil 180
      isNewCustomer || c.hasExpiringSoon || hasRecentlyExpired

/-- The `actionRequired` worklist: `customers.filter(...)`. -/
def actionRequired (customers : List ApiCustomer) (nowMs : Int) : List ApiCustomer :=
  customers.filter fun c => actionRequiredPred c nowMs

/-- The outcome of `getCardStatus` (`customers.print.tsx`), reduced to its
selection content: which card (if any) the function surfaces and under which
banner.  The string/number formatting around the selection carries no logic
and is elided. -/
inductive CardStatusResult where
  | expiredPick (chosen : CardAnalysis)
  | expiringPick (chosen : CardAnalysis)
  | noPayment
  | activePick (chosen : CardAnalysis)
  | genericActive
  deriving Repr, DecidableEq

/-- `Array.prototype.reduce` without an initial value: the first element
seeds the accumulator. -/
def jsReduce1 (f : α → α → α) : α → List α → α
  | a, [] => a
  | a, x :: xs => jsReduce1 f (f a x) xs

/-- `Math.abs(a) < Math.abs(b)` on JSON numbers-or-null (`null` is `0`). -/
def jsAbsLt (a b : Option Int) : Bool := |a.getD 0| < |b.getD 0|

/-- `a < b` on JSON numbers-or-null (`null` is `0`). -/
def jsLt (a b : Option Int) : Bool := a.getD 0 < b.getD 0

/-- `getCardStatus(customer)` on the customer's `cards` analysis array:
most recently expired card first, then soonest expiring-soon card, then the
no-payment-method state for zero cards, then the soonest active
(`valid`/`active`) card, then a bare active banner. -/
def getCardStatus (cards : List CardAnalysis) : CardStatusResult :=
  let expiredCards := cards.filter fun c => c.status == "expired"
  let expiringSoonCards := cards.filter fun c => c.status == "expiring-soon"
  match expiredCards with
  | e :: es =>
    .expiredPick (jsReduce1
      (fun recent card => if jsAbsLt card.daysUntil recent.daysUntil then card else recent)
      e es)
  | [] =>
    match expiringSoonCards with
    | s :: ss =>
      .expiringPick (jsReduce1
        (fun soon card => if jsLt card.daysUntil soon.daysUntil then card else soon)
        s ss)
    | [] =>
      if cards.length == 0 then .noPayment
      else
        match cards.filter (fun c => c.status == "valid" || c.status == "active") with
        | a :: as' =>
          .activePick (jsReduce1
            (fun early card => if jsLt card.daysUntil early.daysUntil then card else early)
            a as')
        | [] => .genericActive

/-! ### Spec-side definitions

Definitions in this block follow the wording of the specification claims and
are compared with the source-derived functions above. -/

/-- Spec wording: the last calendar day of month `m` of year `y` —
`28`, `29`, `30` or `31` depending on the month and, for February, on the
Gregorian leap-year rule computed from the year. -/
def specLastDayOfMonth (y m : Int) : Int :=
  if m = 2 then (if (y % 4 = 0 ∧ y % 100 ≠ 0) ∨ y % 400 = 0 then 29 else 28)
  else if m = 4 ∨ m = 6 ∨ m = 9 ∨ m = 11 then 30 else 31

/-! ### Helper lemmas -/

theorem jsCeilDiv_bounds (a b : Int) (hb : 0 < b) :
    (jsCeilDiv a b - 1) * b < a ∧ a ≤ jsCeilDiv a b * b := by
  unfold jsCeilDiv
  have h1 := Int.ediv_add_emod (-a) b
  have h2 := Int.emod_nonneg (-a) (ne_of_gt hb)
  have h3 := Int.emod_lt_of_pos (-a) hb
  constructor <;> nlinarith [h1, h2, h3]

theorem jsCeilDiv_unique (a b k : Int) (hb : 0 < b)
    (hlo : (k - 1) * b < a) (hhi : a ≤ k * b) : jsCeilDiv a b = k := by
  have h := jsCeilDiv_bounds a b hb
  by_contra hne
  rcases lt_or_gt_of_ne hne with hlt | hgt
  · have : jsCeilDiv a b ≤ k - 1 := by omega
    nlinarith [h.1, h.2]
  · have : k ≤ jsCeilDiv a b - 1 := by omega
    nlinarith [h.1, h.2]

theorem daysFromCivil_day (y m d : Int) :
    daysFromCivil y m d = daysFromCivil y m 1 + (d - 1) := by
  simp only [daysFromCivil]
  ring

theorem jsDateDays_valid_month (y m d : Int) (h1 : 1 ≤ m) (h2 : m ≤ 12) :
    jsDateDays y (m - 1) d = daysFromCivil y m d := by
  have hy : y * 12 + (m - 1) = (m - 1) + y * 12 := by ring
  have hdiv : (y * 12 + (m - 1)) / 12 = y := by
    rw [hy, Int.add_mul_ediv_right _ _ (by norm_num)]
    rw [Int.ediv_eq_zero_of_lt (by omega) (by omega)]
    ring
  have hmod : (y * 12 + (m - 1)) % 12 = m - 1 := by
    rw [hy, Int.add_mul_emod_self]
    exact Int.emod_eq_of_lt (by omega) (by omega)
  show daysFromCivil ((y * 12 + (m - 1)) / 12) ((y * 12 + (m - 1)) % 12 + 1) 1 + (d - 1) =
    daysFromCivil y m d
  rw [hdiv, hmod]
  have hm : m - 1 + 1 = m := by ring
  rw [hm, daysFromCivil_day y m d]

theorem isJsDigit_bounds (c : Char) (h : isJsDigit c = true) :
    48 ≤ c.toNat ∧ c.toNat ≤ 57 := by
  simpa [isJsDigit, Bool.and_eq_true] using h

theorem isJsSpace_eq_false_of_digit (c : Char) (h : isJsDigit c = true) :
    isJsSpace c = false := by
  have hb := isJsDigit_bounds c h
  simp only [isJsSpace, Bool.or_eq_false_iff, Bool.and_eq_false_iff,
    beq_eq_false_iff_ne, ne_eq, decide_eq_false_iff_not, not_le]
  omega

theorem jsParseInt_two_digits (c1 c2 : Char) (h1 : isJsDigit c1 = true)
    (h2 : isJsDigit c2 = true) :
    jsParseInt [c1, c2] = some (((c1.toNat - 48) * 10 + (c2.toNat - 48) : Nat) : Int) := by
  have hs1 : isJsSpace c1 = false := isJsSpace_eq_false_of_digit c1 h1
  have hm : c1 ≠ '-' := by intro h; subst h; exact absurd h1 (by decide)
  have hp : c1 ≠ '+' := by intro h; subst h; exact absurd h1 (by decide)
  simp [jsParseInt, digitsVal, List.dropWhile, hs1, hm, hp, h1, h2]

set_option maxRecDepth 4000 in
/-- The source's `new Date(year, month, 0).getDate()` computes the correct
last day of every month of the years 2000–2099 (checked exhaustively). -/
theorem getLastDayOfMonth_table : ∀ yy : Nat, yy < 100 → ∀ mi : Nat, mi < 12 →
    getLastDayOfMonth ((2000 + yy : Nat) : Int) ((mi + 1 : Nat) : Int) =
      specLastDayOfMonth ((2000 + yy : Nat) : Int) ((mi + 1 : Nat) : Int) := by
  decide

/-! ### Claims -/

/-- C1: for every card whose expiration code resolves to a calendar date and
every reference instant, the classifier sets `daysUntilExpiration` to the
ceiling of (expiration date − now) in whole days — characterised by the two
bounds `(d−1)·day < diff ≤ d·day`, so a card whose last valid day started
earlier today counts as `0` days remaining, not a negative number — and
assigns the first matching status in order: `d < 0` → expired/critical,
`0 ≤ d ≤ 30` → expiring-soon/critical, `31 ≤ d ≤ 90` → expiring-later/warning,
`d > 90` → valid/none; the stated `30/31/90/91` boundaries follow from the
second, third and fourth equivalences. -/
theorem claim_C1 (code : List Char) (nowMs expDays : Int)
    (hparse : parseExpirationDate (some code) = some (some expDays)) :
    ∃ d r, analyzeCardExpiration (some code) nowMs = some r ∧
      r.daysUntilExpiration = some d ∧
      r.expirationDate = some expDays ∧
      (d - 1) * msPerDay < expDays * msPerDay - nowMs ∧
      expDays * msPerDay - nowMs ≤ d * msPerDay ∧
      (expDays * msPerDay ≤ nowMs → nowMs < expDays * msPerDay + msPerDay → d = 0) ∧
      (d < 0 ↔ r.status = ExpStatus.expired ∧ r.warningLevel = WarningLevel.critical) ∧
      (0 ≤ d ∧ d ≤ 30 ↔
        r.status = ExpStatus.expiringSoon ∧ r.warningLevel = WarningLevel.critical) ∧
      (31 ≤ d ∧ d ≤ 90 ↔
        r.status = ExpStatus.expiringLater ∧ r.warningLevel = WarningLevel.warning) ∧
      (90 < d ↔ r.status = ExpStatus.valid ∧ r.warningLevel = WarningLevel.wlNone) := by
  have hpos : (0:Int) < msPerDay := by norm_num [msPerDay]
  obtain ⟨hb1, hb2⟩ := jsCeilDiv_bounds (expDays * msPerDay - nowMs) msPerDay hpos
  refine ⟨jsCeilDiv (expDays * msPerDay - nowMs) msPerDay, ?_⟩
  set d := jsCeilDiv (expDays * msPerDay - nowMs) msPerDay with hd
  have h0 : expDays * msPerDay ≤ nowMs → nowMs < expDays * msPerDay + msPerDay → d = 0 := by
    intro hle hlt
    refine jsCeilDiv_unique _ _ _ hpos (by simp only [msPerDay] at *; omega)
      (by simp only [msPerDay] at *; omega)
  unfold analyzeCardExpiration
  rw [hparse]
  simp only [getDaysUntilExpiration, Option.map_some']
  by_cases h1 : d < 0
  · rw [if_pos h1]
    exact ⟨_, rfl, rfl, rfl, hb1, hb2, h0, by simp [h1], by simp; omega, by simp; omega,
      by simp; omega⟩
  · rw [if_neg h1]
    by_cases h2 : d ≤ 30
    · rw [if_pos h2]
      exact ⟨_, rfl, rfl, rfl, hb1, hb2, h0, by simp; omega, by simp; omega, by simp; omega,
        by simp; omega⟩
    · rw [if_neg h2]
      by_cases h3 : d ≤ 90
      · rw [if_pos h3]
        exact ⟨_, rfl, rfl, rfl, hb1, hb2, h0, by simp; omega, by simp; omega, by simp; omega,
          by simp; omega⟩
      · rw [if_neg h3]
        exact ⟨_, rfl, rfl, rfl, hb1, hb2, h0, by simp; omega, by simp; omega, by simp; omega,
          by simp; omega⟩

/-- C1 witness: the hypothesis of `claim_C1` is satisfiable — code `"1226"`
parses to 2026-12-31, and the classifier produces a day count for it. -/
theorem claim_C1_witness :
    ∃ d r, analyzeCardExpiration (some ['1', '2', '2', '6'])
        (daysFromCivil 2026 11 15 * msPerDay) = some r ∧
      r.daysUntilExpiration = some d := by
  obtain ⟨d, r, ha, hb, -⟩ := claim_C1 ['1', '2', '2', '6']
    (daysFromCivil 2026 11 15 * msPerDay) (daysFromCivil 2026 12 31) (by decide)
  exact ⟨d, r, ha, hb⟩

/-- C8 counterexample: at reference instant 2026-11-15, code `"1226"`
(December, last day 2026-12-31) classifies with a status other than
`expiring-soon` — 46 days exceeds the 30-day `expiring-soon` boundary of the
classifier. -/
theorem claim_C8_counterexample :
    ¬ ((analyzeCardExpiration (some ['1', '2', '2', '6'])
        (daysFromCivil 2026 11 15 * msPerDay)).map ExpirationStatus.status =
      some ExpStatus.expiringSoon) := by decide

/-- C8 amended: given reference instant 2026-11-15, code `"1226"` resolves to
December 31 2026 and classifies with `daysUntilExpiration = 46` and status
`expiring-later` (warning level `warning`). -/
theorem claim_C8_amended :
    analyzeCardExpiration (some ['1', '2', '2', '6'])
        (daysFromCivil 2026 11 15 * msPerDay) =
      some ⟨ExpStatus.expiringLater, some 46, some (daysFromCivil 2026 12 31),
        WarningLevel.warning⟩ := by decide

/-- C4: every 4-character all-digit code `"MMYY"` with month 1–12 resolves to
the last calendar day of month `MM` in year `2000+YY`, where the last day is
the 28/29/30/31 table of `specLastDayOfMonth` with leap-year February computed
from the year arithmetic. -/
theorem claim_C4 (c1 c2 c3 c4 : Char)
    (h1 : isJsDigit c1 = true) (h2 : isJsDigit c2 = true)
    (h3 : isJsDigit c3 = true) (h4 : isJsDigit c4 = true)
    (hm1 : 1 ≤ 10 * (c1.toNat - 48) + (c2.toNat - 48))
    (hm2 : 10 * (c1.toNat - 48) + (c2.toNat - 48) ≤ 12) :
    parseExpirationDate (some [c1, c2, c3, c4]) =
      some (some (daysFromCivil
        ((2000 + (10 * (c3.toNat - 48) + (c4.toNat - 48)) : Nat) : Int)
        ((10 * (c1.toNat - 48) + (c2.toNat - 48) : Nat) : Int)
        (specLastDayOfMonth
          ((2000 + (10 * (c3.toNat - 48) + (c4.toNat - 48)) : Nat) : Int)
          ((10 * (c1.toNat - 48) + (c2.toNat - 48) : Nat) : Int)))) := by
  obtain ⟨hd1, hd1'⟩ := isJsDigit_bounds c1 h1
  obtain ⟨hd2, hd2'⟩ := isJsDigit_bounds c2 h2
  obtain ⟨hd3, hd3'⟩ := isJsDigit_bounds c3 h3
  obtain ⟨hd4, hd4'⟩ := isJsDigit_bounds c4 h4
  set v1 := c1.toNat - 48 with hv1
  set v2 := c2.toNat - 48 with hv2
  set v3 := c3.toNat - 48 with hv3
  set v4 := c4.toNat - 48 with hv4
  have e1 := jsParseInt_two_digits c1 c2 h1 h2
  have e2 := jsParseInt_two_digits c3 c4 h3 h4
  have hred : parseExpirationDate (some [c1, c2, c3, c4]) =
      match jsParseInt [c1, c2], jsParseInt [c3, c4] with
      | some month, some y2 =>
        some (some (jsDateDays (y2 + 2000) (month - 1) (getLastDayOfMonth (y2 + 2000) month)))
      | _, _ => some none := rfl
  rw [hred, e1, e2]
  dsimp only
  have hyear : ((v3 * 10 + v4 : Nat) : Int) + 2000 = ((2000 + (10 * v3 + v4) : Nat) : Int) := by
    push_cast; ring
  have hmonth : ((v1 * 10 + v2 : Nat) : Int) = ((10 * v1 + v2 : Nat) : Int) := by
    push_cast; ring
  have htable := getLastDayOfMonth_table (10 * v3 + v4) (by omega) (10 * v1 + v2 - 1) (by omega)
  have hmm : (10 * v1 + v2 - 1) + 1 = 10 * v1 + v2 := by omega
  rw [hmm] at htable
  have hm1' : (1 : Int) ≤ ((10 * v1 + v2 : Nat) : Int) := by exact_mod_cast hm1
  have hm2' : ((10 * v1 + v2 : Nat) : Int) ≤ 12 := by exact_mod_cast hm2
  simp only [hyear, hmonth]
  rw [htable, jsDateDays_valid_month _ _ _ hm1' hm2']

/-- C4 witness: code `"0228"` (February 2028, a leap year) resolves to
2028-02-29. -/
theorem claim_C4_witness :
    parseExpirationDate (some ['0', '2', '2', '8']) =
      some (some (daysFromCivil 2028 2 29)) := by
  have h := claim_C4 '0' '2' '2' '8' (by decide) (by decide) (by decide) (by decide)
    (by decide) (by decide)
  exact h.trans (by decide)

/-- C5 counterexample: the 4-character code `"0026"` has an out-of-range
month `00`, yet the codec resolves it to an actual calendar date —
`new Date(2026, -1, 31)`, i.e. 2025-12-31 — and at reference instant
2026-11-15 the classifier reports status `expired`, not the `no expiration`
outcome the claim requires for such input. -/
theorem claim_C5_counterexample :
    parseExpirationDate (some ['0', '0', '2', '6']) = some (some (daysFromCivil 2025 12 31)) ∧
    (analyzeCardExpiration (some ['0', '0', '2', '6'])
        (daysFromCivil 2026 11 15 * msPerDay)).map ExpirationStatus.status =
      some ExpStatus.expired := by decide

/-- C5 amended: a 4-character code never throws and always gets a definite
answer, but not the absent-code outcome: when a field has no parseable digit
prefix the result is a status-`valid` record with `NaN` day count and Invalid
Date (distinct from the absent-code `null` that triggers the sentinel), and
when both fields parse, an out-of-range month rolls over through JS `Date`
month arithmetic to a real calendar date which is then classified normally
(`"0026"` → 2025-12-31, `"1326"` → 2027-01-31). -/
theorem claim_C5_amended (code : List Char) (nowMs : Int) (hlen : code.length = 4)
    (hfail : jsParseInt (code.take 2) = none ∨ jsParseInt (code.drop 2) = none) :
    analyzeCardExpiration (some code) nowMs =
      some ⟨ExpStatus.valid, none, none, WarningLevel.wlNone⟩ ∧
    parseExpirationDate (some ['0', '0', '2', '6']) = some (some (daysFromCivil 2025 12 31)) ∧
    parseExpirationDate (some ['1', '3', '2', '6']) = some (some (daysFromCivil 2027 1 31)) := by
  refine ⟨?_, by decide, by decide⟩
  have hred : parseExpirationDate (some code) =
      if code.length ≠ 4 then none
      else
        match jsParseInt (code.take 2), jsParseInt (code.drop 2) with
        | some month, some y2 =>
          some (some (jsDateDays (y2 + 2000) (month - 1) (getLastDayOfMonth (y2 + 2000) month)))
        | _, _ => some none := rfl
  have hp : parseExpirationDate (some code) = some none := by
    rw [hred, if_neg (by omega)]
    split
    · rcases hfail with h | h <;> simp_all
    · rfl
  unfold analyzeCardExpiration
  rw [hp]
  rfl

/-- C5 witness: the all-letter code `"abcd"` is 4 characters with no digit
prefix; the classifier answers with the status-`valid` `NaN` record. -/
theorem claim_C5_witness :
    analyzeCardExpiration (some ['a', 'b', 'c', 'd']) 0 =
      some ⟨ExpStatus.valid, none, none, WarningLevel.wlNone⟩ :=
  (claim_C5_amended ['a', 'b', 'c', 'd'] 0 (by decide) (Or.inl (by decide))).1

/-- C9 (implicit): the classification output type has no distinct
no-expiration status value; for every card whose code is absent or fails to
parse (the parser's `null` outcome: absent code or length ≠ 4),
`analyzeCustomers` substitutes the sentinel record — status `valid`,
`999999` days, expiration 2099-12-31 — so every produced record's status lies
in {expired, expiring-soon, expiring-later, valid}. -/
theorem claim_C9 (customers : List Customer) (nowMs : Int)
    (cw : CustomerWithExpiration) (hcw : cw ∈ analyzeCustomers customers nowMs) :
    (∀ card r, (card, r) ∈ cw.expirationAnalysis →
      (card.expirationDate = none ∨ ∃ s, card.expirationDate = some s ∧ s.length ≠ 4) →
      r = noExpirationFallback) ∧
    (∀ card r, (card, r) ∈ cw.expirationAnalysis →
      r.status = ExpStatus.expired ∨ r.status = ExpStatus.expiringSoon ∨
      r.status = ExpStatus.expiringLater ∨ r.status = ExpStatus.valid) ∧
    noExpirationFallback =
      ⟨ExpStatus.valid, some 999999, some (daysFromCivil 2099 12 31), WarningLevel.wlNone⟩ := by
  refine ⟨?_, ?_, rfl⟩
  · intro card r hmem habsent
    simp only [analyzeCustomers, List.mem_map] at hcw
    obtain ⟨c, hc, rfl⟩ := hcw
    simp only [List.mem_map] at hmem
    obtain ⟨card', hcard', heq⟩ := hmem
    rw [Prod.mk.injEq] at heq
    obtain ⟨heqc, hr⟩ := heq
    subst heqc
    have hparse : parseExpirationDate card'.expirationDate = none := by
      rcases habsent with h | ⟨s, hs, hlen⟩
      · rw [h]; rfl
      · rw [hs]
        have : parseExpirationDate (some s) =
            if s.length ≠ 4 then none
            else
              match jsParseInt (s.take 2), jsParseInt (s.drop 2) with
              | some month, some y2 =>
                some (some (jsDateDays (y2 + 2000) (month - 1)
                  (getLastDayOfMonth (y2 + 2000) month)))
              | _, _ => some none := rfl
        rw [this, if_pos hlen]
    have hana : analyzeCardExpiration card'.expirationDate nowMs = none := by
      unfold analyzeCardExpiration
      rw [hparse]
    rw [← hr, hana]
    rfl
  · intro card r hmem
    cases hst : r.status <;> simp [hst]

/-- C9 witness: a customer with one card lacking an expiration code; its
single classification record is the sentinel. -/
theorem claim_C9_witness :
    ∃ cw, cw ∈ analyzeCustomers
        [⟨none, none, none, CardsField.flat [⟨none, none, none⟩]⟩] 0 ∧
      ∀ card r, (card, r) ∈ cw.expirationAnalysis → r = noExpirationFallback := by
  obtain ⟨h1, -, -⟩ := claim_C9
    [⟨none, none, none, CardsField.flat [⟨none, none, none⟩]⟩] 0
    ⟨⟨none, none, none, CardsField.flat [⟨none, none, none⟩]⟩,
      [(⟨none, none, none⟩, noExpirationFallback)]⟩ (by decide)
  refine ⟨⟨⟨none, none, none, CardsField.flat [⟨none, none, none⟩]⟩,
    [(⟨none, none, none⟩, noExpirationFallback)]⟩, by decide, ?_⟩
  intro card r hmem
  refine h1 card r hmem (Or.inl ?_)
  simp only [List.mem_singleton, Prod.mk.injEq] at hmem
  rw [hmem.1]

/-- The age-rule tail of the Policy B cascade flags action exactly for
`new-needs-payment`. -/
theorem clientStatusAgeRules_requiresAction (daysOld : Int) (hasCards : Bool) :
    ((clientStatusAgeRules daysOld hasCards).requiresAction = true ↔
      (clientStatusAgeRules daysOld hasCards).status = ClientStatusTag.expiredCards ∨
      (clientStatusAgeRules daysOld hasCards).status = ClientStatusTag.expiringCards ∨
      (clientStatusAgeRules daysOld hasCards).status = ClientStatusTag.newNeedsPayment) := by
  unfold clientStatusAgeRules
  split_ifs <;> simp

/-- C3: the Policy B classifier follows the claimed strict rule order —
no creation timestamp → all-good/inactive-old with priority none; expired
card (with cards) → expired-cards/critical; expiring-soon card (none expired)
→ expiring-cards/high; no cards and age ≤ 180 → new-needs-payment/high;
no cards and age > 365 → inactive-old/none; no cards and 180 < age ≤ 365 →
inactive-old/low; otherwise all-good/none — and `requiresAction` holds exactly
for expired-cards, expiring-cards and new-needs-payment. -/
theorem claim_C3 (c : Customer) (ea : List (Card × ExpirationStatus)) (nowMs : Int) :
    (jsOrTimestamp c.createdTime c.customerSince = none →
      (analyzeClientStatus c (some ea) nowMs).status =
        (if hasPaymentMethods c then ClientStatusTag.allGood else ClientStatusTag.inactiveOld) ∧
      (analyzeClientStatus c (some ea) nowMs).priority = Priority.prNone ∧
      (analyzeClientStatus c (some ea) nowMs).requiresAction = false) ∧
    (∀ t, jsOrTimestamp c.createdTime c.customerSince = some t →
      ((hasPaymentMethods c = true →
        (∃ e ∈ ea, e.2.status = ExpStatus.expired) →
        analyzeClientStatus c (some ea) nowMs =
          ⟨ClientStatusTag.expiredCards, Priority.critical,
            getDaysSinceCreated t nowMs, true, true⟩) ∧
      (hasPaymentMethods c = true →
        (¬ ∃ e ∈ ea, e.2.status = ExpStatus.expired) →
        (∃ e ∈ ea, e.2.status = ExpStatus.expiringSoon) →
        analyzeClientStatus c (some ea) nowMs =
          ⟨ClientStatusTag.expiringCards, Priority.high,
            getDaysSinceCreated t nowMs, true, true⟩) ∧
      (hasPaymentMethods c = false → getDaysSinceCreated t nowMs ≤ 180 →
        analyzeClientStatus c (some ea) nowMs =
          ⟨ClientStatusTag.newNeedsPayment, Priority.high,
            getDaysSinceCreated t nowMs, false, true⟩) ∧
      (hasPaymentMethods c = false → 365 < getDaysSinceCreated t nowMs →
        analyzeClientStatus c (some ea) nowMs =
          ⟨ClientStatusTag.inactiveOld, Priority.prNone,
            getDaysSinceCreated t nowMs, false, false⟩) ∧
      (hasPaymentMethods c = false → 180 < getDaysSinceCreated t nowMs →
        getDaysSinceCreated t nowMs ≤ 365 →
        analyzeClientStatus c (some ea) nowMs =
          ⟨ClientStatusTag.inactiveOld, Priority.low,
            getDaysSinceCreated t nowMs, false, false⟩) ∧
      (hasPaymentMethods c = true →
        (¬ ∃ e ∈ ea, e.2.status = ExpStatus.expired) →
        (¬ ∃ e ∈ ea, e.2.status = ExpStatus.expiringSoon) →
        analyzeClientStatus c (some ea) nowMs =
          ⟨ClientStatusTag.allGood, Priority.prNone,
            getDaysSinceCreated t nowMs, true, false⟩))) ∧
    ((analyzeClientStatus c (some ea) nowMs).requiresAction = true ↔
      (analyzeClientStatus c (some ea) nowMs).status = ClientStatusTag.expiredCards ∨
      (analyzeClientStatus c (some ea) nowMs).status = ClientStatusTag.expiringCards ∨
      (analyzeClientStatus c (some ea) nowMs).status = ClientStatusTag.newNeedsPayment) := by
  have hred : analyzeClientStatus c (some ea) nowMs =
      match jsOrTimestamp c.createdTime c.customerSince with
      | none => ⟨if hasPaymentMethods c then ClientStatusTag.allGood else ClientStatusTag.inactiveOld,
          Priority.prNone, 999, hasPaymentMethods c, false⟩
      | some createdTime =>
        if hasPaymentMethods c && ea.any (fun analysis => analysis.2.status == ExpStatus.expired) then
          ⟨ClientStatusTag.expiredCards, Priority.critical,
            getDaysSinceCreated createdTime nowMs, hasPaymentMethods c, true⟩
        else if hasPaymentMethods c &&
            ea.any (fun analysis => analysis.2.status == ExpStatus.expiringSoon) then
          ⟨ClientStatusTag.expiringCards, Priority.high,
            getDaysSinceCreated createdTime nowMs, hasPaymentMethods c, true⟩
        else clientStatusAgeRules (getDaysSinceCreated createdTime nowMs) (hasPaymentMethods c) :=
    rfl
  have hexp : (ea.any fun e => e.2.status == ExpStatus.expired) = true ↔
      ∃ e ∈ ea, e.2.status = ExpStatus.expired := by
    simp [List.any_eq_true]
  have hsoon : (ea.any fun e => e.2.status == ExpStatus.expiringSoon) = true ↔
      ∃ e ∈ ea, e.2.status = ExpStatus.expiringSoon := by
    simp [List.any_eq_true]
  refine ⟨?_, ?_, ?_⟩
  · intro h0
    rw [hred, h0]
    cases hpm : hasPaymentMethods c <;> simp [hpm]
  · intro t ht
    rw [hred, ht]
    dsimp only
    refine ⟨?_, ?_, ?_, ?_, ?_, ?_⟩
    · intro hpm hex
      rw [hpm, hexp.mpr hex]
      rfl
    · intro hpm hex hso
      rw [hpm, hsoon.mpr hso]
      have : (ea.any fun e => e.2.status == ExpStatus.expired) = false := by
        rw [← Bool.not_eq_true]; exact fun h => hex (hexp.mp h)
      rw [this]
      rfl
    · intro hpm hage
      rw [hpm, if_neg (by simp), if_neg (by simp)]
      unfold clientStatusAgeRules
      rw [if_pos (by simp [hage])]
    · intro hpm hage
      rw [hpm, if_neg (by simp), if_neg (by simp)]
      unfold clientStatusAgeRules
      rw [if_neg (by simp; omega), if_pos (by simp; omega)]
    · intro hpm hage1 hage2
      rw [hpm, if_neg (by simp), if_neg (by simp)]
      unfold clientStatusAgeRules
      rw [if_neg (by simp; omega), if_neg (by simp; omega), if_pos (by simp)]
    · intro hpm hex hso
      have h1 : (ea.any fun e => e.2.status == ExpStatus.expired) = false := by
        rw [← Bool.not_eq_true]; exact fun h => hex (hexp.mp h)
      have h2 : (ea.any fun e => e.2.status == ExpStatus.expiringSoon) = false := by
        rw [← Bool.not_eq_true]; exact fun h => hso (hsoon.mp h)
      rw [hpm, h1, h2, if_neg (by simp), if_neg (by simp)]
      unfold clientStatusAgeRules
      rw [if_neg (by simp), if_neg (by simp), if_neg (by simp)]
  · rw [hred]
    cases ht : jsOrTimestamp c.createdTime c.customerSince with
    | none => cases hpm : hasPaymentMethods c <;> simp
    | some t =>
      dsimp only
      split_ifs <;> simp [clientStatusAgeRules_requiresAction]

/-- C3 witness: a customer with a card and an expired classification is
expired-cards/critical with action required. -/
theorem claim_C3_witness :
    analyzeClientStatus ⟨none, none, some 1000, CardsField.flat [⟨none, none, none⟩]⟩
        (some [(⟨none, none, none⟩,
          ⟨ExpStatus.expired, some (-5), some 0, WarningLevel.critical⟩)])
        (msPerDay * 10) =
      ⟨ClientStatusTag.expiredCards, Priority.critical,
        getDaysSinceCreated 1000 (msPerDay * 10), true, true⟩ := by
  have h := (claim_C3 ⟨none, none, some 1000, CardsField.flat [⟨none, none, none⟩]⟩
    [(⟨none, none, none⟩, ⟨ExpStatus.expired, some (-5), some 0, WarningLevel.critical⟩)]
    (msPerDay * 10)).2.1 1000 (by decide)
  exact h.1 (by decide) (by decide)

/-- `filterByStatus` on a single status keeps exactly the customers having at
least one classification record with that status. -/
theorem filterByStatus_singleton (customers : List CustomerWithExpiration) (s : ExpStatus) :
    filterByStatus customers [s] =
      customers.filter fun c => decide (∃ e ∈ c.expirationAnalysis, e.2.status = s) := by
  unfold filterByStatus
  apply List.filter_congr
  intro c _
  rw [Bool.eq_iff_iff]
  simp [List.any_eq_true]

/-- C6: the summary reports the number of customers, the total card count as
the sum of the raw (flat) card arrays, and per status both the number of
customers having at least one record in that status (a customer with two
expired cards counts once) and the number of classification records across
those flagged customers (counted per record, not per customer). -/
theorem claim_C6 (customers : List CustomerWithExpiration) :
    (generateSummary customers).totalCustomers = customers.length ∧
    ((∀ c ∈ customers, ∃ l, c.customer.cards = CardsField.flat l) →
      (generateSummary customers).totalCards =
        (customers.map fun c => (cardsOf c.customer.cards).length).sum) ∧
    ((generateSummary customers).expired.customers =
      customers.countP fun c =>
        decide (∃ e ∈ c.expirationAnalysis, e.2.status = ExpStatus.expired)) ∧
    ((generateSummary customers).expired.cards =
      ((customers.filter fun c =>
        decide (∃ e ∈ c.expirationAnalysis, e.2.status = ExpStatus.expired)).map
          fun c => c.expirationAnalysis.length).sum) ∧
    ((generateSummary customers).expiringSoon.customers =
      customers.countP fun c =>
        decide (∃ e ∈ c.expirationAnalysis, e.2.status = ExpStatus.expiringSoon)) ∧
    ((generateSummary customers).expiringSoon.cards =
      ((customers.filter fun c =>
        decide (∃ e ∈ c.expirationAnalysis, e.2.status = ExpStatus.expiringSoon)).map
          fun c => c.expirationAnalysis.length).sum) ∧
    ((generateSummary customers).expiringLater.customers =
      customers.countP fun c =>
        decide (∃ e ∈ c.expirationAnalysis, e.2.status = ExpStatus.expiringLater)) ∧
    ((generateSummary customers).expiringLater.cards =
      ((customers.filter fun c =>
        decide (∃ e ∈ c.expirationAnalysis, e.2.status = ExpStatus.expiringLater)).map
          fun c => c.expirationAnalysis.length).sum) := by
  refine ⟨rfl, ?_, ?_, ?_, ?_, ?_, ?_, ?_⟩
  · intro hflat
    show (customers.map fun c => flatCardCount c.customer.cards).sum = _
    congr 1
    apply List.map_congr_left
    intro c hc
    obtain ⟨l, hl⟩ := hflat c hc
    rw [hl]
    rfl
  · show (getExpiredCards customers).length = _
    rw [getExpiredCards, filterByStatus_singleton, List.countP_eq_length_filter]
  · show ((getExpiredCards customers).map fun c => c.expirationAnalysis.length).sum = _
    rw [getExpiredCards, filterByStatus_singleton]
  · show (getExpiringSoonCards customers).length = _
    rw [getExpiringSoonCards, filterByStatus_singleton, List.countP_eq_length_filter]
  · show ((getExpiringSoonCards customers).map fun c => c.expirationAnalysis.length).sum = _
    rw [getExpiringSoonCards, filterByStatus_singleton]
  · show (getExpiringLaterCards customers).length = _
    rw [getExpiringLaterCards, filterByStatus_singleton, List.countP_eq_length_filter]
  · show ((getExpiringLaterCards customers).map fun c => c.expirationAnalysis.length).sum = _
    rw [getExpiringLaterCards, filterByStatus_singleton]

/-- C6 witness: one customer with two expired cards — one flagged customer,
two records. -/
theorem claim_C6_witness :
    (generateSummary [⟨⟨none, none, none, CardsField.flat [⟨none, none, none⟩, ⟨none, none, none⟩]⟩,
        [(⟨none, none, none⟩, ⟨ExpStatus.expired, some (-40), some 0, WarningLevel.critical⟩),
         (⟨none, none, none⟩, ⟨ExpStatus.expired, some (-10), some 0, WarningLevel.critical⟩)]⟩]).totalCustomers = 1 ∧
    (generateSummary [⟨⟨none, none, none, CardsField.flat [⟨none, none, none⟩, ⟨none, none, none⟩]⟩,
        [(⟨none, none, none⟩, ⟨ExpStatus.expired, some (-40), some 0, WarningLevel.critical⟩),
         (⟨none, none, none⟩, ⟨ExpStatus.expired, some (-10), some 0, WarningLevel.critical⟩)]⟩]).totalCards = 2 ∧
    (generateSummary [⟨⟨none, none, none, CardsField.flat [⟨none, none, none⟩, ⟨none, none, none⟩]⟩,
        [(⟨none, none, none⟩, ⟨ExpStatus.expired, some (-40), some 0, WarningLevel.critical⟩),
         (⟨none, none, none⟩, ⟨ExpStatus.expired, some (-10), some 0, WarningLevel.critical⟩)]⟩]).expired.customers = 1 ∧
    (generateSummary [⟨⟨none, none, none, CardsField.flat [⟨none, none, none⟩, ⟨none, none, none⟩]⟩,
        [(⟨none, none, none⟩, ⟨ExpStatus.expired, some (-40), some 0, WarningLevel.critical⟩),
         (⟨none, none, none⟩, ⟨ExpStatus.expired, some (-10), some 0, WarningLevel.critical⟩)]⟩]).expired.cards = 2 := by
  obtain ⟨h1, h2, h3, h4, -⟩ := claim_C6
    [⟨⟨none, none, none, CardsField.flat [⟨none, none, none⟩, ⟨none, none, none⟩]⟩,
        [(⟨none, none, none⟩, ⟨ExpStatus.expired, some (-40), some 0, WarningLevel.critical⟩),
         (⟨none, none, none⟩, ⟨ExpStatus.expired, some (-10), some 0, WarningLevel.critical⟩)]⟩]
  refine ⟨h1.trans rfl, ?_, h3.trans (by decide), h4.trans (by decide)⟩
  refine (h2 ?_).trans (by decide)
  intro c hc
  rw [List.mem_singleton] at hc
  subst hc
  exact ⟨_, rfl⟩

/-- C10 (implicit): a customer whose `k` cards arrive in the nested
`{ elements: [...] }` shape gets `k` classification records from
`analyzeCustomers`, yet contributes `0` to the `totalCards` figure of
`generateSummary` (which only counts flat arrays), while its `k` records are
still counted in the per-status record figures when the customer is
flagged. -/
theorem claim_C10 (c : Customer) (l : List Card) (nowMs : Int)
    (hn : c.cards = CardsField.nested l) :
    ∃ cw, analyzeCustomers [c] nowMs = [cw] ∧
      cw.expirationAnalysis.length = l.length ∧
      (generateSummary [cw]).totalCards = 0 ∧
      (∀ pop : List CustomerWithExpiration,
        (generateSummary (pop ++ [cw])).totalCards = (generateSummary pop).totalCards) ∧
      ((∃ e ∈ cw.expirationAnalysis, e.2.status = ExpStatus.expired) →
        (generateSummary [cw]).expired.cards = l.length) := by
  refine ⟨⟨c, (cardsOf c.cards).map fun card =>
    (card, (analyzeCardExpiration card.expirationDate nowMs).getD noExpirationFallback)⟩,
    rfl, ?_, ?_, ?_, ?_⟩
  · simp [hn, cardsOf]
  · show ([(⟨c, _⟩ : CustomerWithExpiration)].map fun c0 => flatCardCount c0.customer.cards).sum = 0
    simp [hn, flatCardCount]
  · intro pop
    simp only [generateSummary, List.map_append, List.sum_append]
    have h0 : flatCardCount ((⟨c, (cardsOf c.cards).map fun card =>
        (card, (analyzeCardExpiration card.expirationDate nowMs).getD noExpirationFallback)⟩ :
          CustomerWithExpiration).customer.cards) = 0 := by
      simp [hn, flatCardCount]
    simp [h0]
  · intro hex
    show (((filterByStatus _ [ExpStatus.expired]).map fun c0 => c0.expirationAnalysis.length)).sum
      = l.length
    rw [filterByStatus_singleton, List.filter_singleton]
    rw [decide_eq_true hex]
    simp [hn, cardsOf]

/-- C10 witness: a nested-shape customer with one card is classified
(one record) but counts zero cards in the summary total. -/
theorem claim_C10_witness :
    ∃ cw, analyzeCustomers [⟨none, none, none,
        CardsField.nested [⟨none, none, some ['0', '1', '2', '0']⟩]⟩] 0 = [cw] ∧
      cw.expirationAnalysis.length = 1 ∧
      (generateSummary [cw]).totalCards = 0 := by
  obtain ⟨cw, h1, h2, h3, -, -⟩ := claim_C10
    ⟨none, none, none, CardsField.nested [⟨none, none, some ['0', '1', '2', '0']⟩]⟩
    [⟨none, none, some ['0', '1', '2', '0']⟩] 0 rfl
  exact ⟨cw, h1, h2, h3⟩

/-- C2: a customer record is on the Policy A action-required worklist iff it
is in the population, its business name is present and non-blank after
trimming, and at least one of: (a) `customerSince` is present (a stored `0`
is falsy and acts as absent) and at or after the fixed cleanup cutoff when the
customer has zero cards, or at or after now − 90 days when it has cards;
(b) some card has status expiring-soon; (c) some expired card is at most 180
days overdue.  The instant hypothesis (now later than 90 days after the
epoch, true of any realistic clock) aligns the JS falsy-zero guard with the
positive cutoffs. -/
theorem claim_C2 (nowMs : Int) (hnow : 90 * msPerDay < nowMs)
    (pop : List ApiCustomer) (bn : Option String) (cs : Option Int)
    (analyses : List CardAnalysis)
    (hdays : ∀ a ∈ analyses, a.status = "expired" → a.daysUntil ≠ none) :
    mkApiCustomer bn cs analyses ∈ actionRequired pop nowMs ↔
      mkApiCustomer bn cs analyses ∈ pop ∧
      ((∃ s, bn = some s ∧ jsTrim s ≠ "") ∧
      ((∃ t, cs = some t ∧
          (if analyses.length = 0 then cleanupDateMs ≤ t else nowMs - 90 * msPerDay ≤ t)) ∨
       (∃ a ∈ analyses, a.status = "expiring-soon") ∨
       (∃ a ∈ analyses, a.status = "expired" ∧ ∃ v, a.daysUntil = some v ∧ |v| ≤ 180))) := by
  have hcle : (0 : Int) < cleanupDateMs := by decide
  unfold actionRequired
  rw [List.mem_filter]
  refine and_congr_right fun _ => ?_
  cases bn with
  | none => simp [actionRequiredPred, mkApiCustomer]
  | some s =>
    by_cases hts : jsTrim s = ""
    · simp [actionRequiredPred, mkApiCustomer, hts]
    · have hbn : (∃ s', some s = some s' ∧ jsTrim s' ≠ "") := ⟨s, rfl, hts⟩
      simp only [actionRequiredPred, mkApiCustomer]
      rw [if_neg (show ¬((jsTrim s == "") = true) by simpa using hts)]
      simp only [hbn, true_and]
      rw [Bool.or_eq_true, Bool.or_eq_true]
      refine (or_congr (or_congr ?_ ?_) ?_).trans or_assoc
      · -- (a) the new-customer window
        cases cs with
        | none => simp
        | some t =>
          simp only [Option.some.injEq, Bool.and_eq_true, decide_eq_true_eq, ne_eq]
          constructor
          · rintro ⟨ht0, hcond⟩
            refine ⟨t, rfl, ?_⟩
            rcases Nat.eq_zero_or_pos analyses.length with hl | hl
            · rw [if_pos hl]
              rw [if_neg (by omega)] at hcond
              exact of_decide_eq_true hcond
            · rw [if_neg (by omega)]
              rw [if_pos (by omega)] at hcond
              exact of_decide_eq_true hcond
          · rintro ⟨t', ht', hcond⟩
            cases ht'
            rcases Nat.eq_zero_or_pos analyses.length with hl | hl
            · rw [if_pos hl] at hcond
              refine ⟨by omega, ?_⟩
              rw [if_neg (by omega)]
              exact decide_eq_true hcond
            · rw [if_neg (by omega)] at hcond
              refine ⟨by omega, ?_⟩
              rw [if_pos (by omega)]
              exact decide_eq_true hcond
      · -- (b) an expiring-soon card
        simp [List.any_eq_true]
      · -- (c) an expired card at most 180 days overdue
        simp only [List.any_eq_true, Bool.and_eq_true, beq_iff_eq]
        constructor
        · rintro ⟨a, ha, hst, habs⟩
          obtain ⟨v, hv⟩ := Option.ne_none_iff_exists'.mp (hdays a ha hst)
          exact ⟨a, ha, hst, v, hv, by simpa [jsAbsLe, hv] using habs⟩
        · rintro ⟨a, ha, hst, v, hv, hle⟩
          exact ⟨a, ha, hst, by simpa [jsAbsLe, hv] using hle⟩

/-- C2 witness: a named business with one expiring-soon card is on the
worklist. -/
theorem claim_C2_witness :
    mkApiCustomer (some "Acme") none
        [⟨⟨none, none, none⟩, "expiring-soon", some 10⟩] ∈
      actionRequired [mkApiCustomer (some "Acme") none
        [⟨⟨none, none, none⟩, "expiring-soon", some 10⟩]]
        (daysFromCivil 2026 11 15 * msPerDay) := by
  refine (claim_C2 _ (by decide) _ _ _ _ (by decide)).mpr ?_
  refine ⟨List.mem_singleton.mpr rfl, ⟨"Acme", rfl, by decide⟩, Or.inr (Or.inl ?_)⟩
  exact ⟨_, List.mem_singleton.mpr rfl, rfl⟩

/-- A `reduce` with a keep-first strict-less comparison returns an element of
the list that minimises the key. -/
theorem jsReduce1_min (lt : CardAnalysis → CardAnalysis → Bool) (key : CardAnalysis → Int)
    (hlt : ∀ x y, lt x y = decide (key x < key y)) (a : CardAnalysis) (l : List CardAnalysis) :
    jsReduce1 (fun acc x => if lt x acc then x else acc) a l ∈ a :: l ∧
    ∀ x ∈ a :: l, key (jsReduce1 (fun acc x => if lt x acc then x else acc) a l) ≤ key x := by
  induction l generalizing a with
  | nil => simp [jsReduce1]
  | cons b t ih =>
    have hstep : jsReduce1 (fun acc x => if lt x acc then x else acc) a (b :: t) =
        jsReduce1 (fun acc x => if lt x acc then x else acc) (if lt b a then b else a) t := rfl
    obtain ⟨ihmem, ihmin⟩ := ih (if lt b a then b else a)
    have hfmem : (if lt b a then b else a) = a ∨ (if lt b a then b else a) = b := by
      by_cases h : lt b a = true
      · rw [if_pos h]; exact Or.inr rfl
      · rw [if_neg h]; exact Or.inl rfl
    have hfkey : key (if lt b a then b else a) ≤ key a ∧ key (if lt b a then b else a) ≤ key b := by
      by_cases h : lt b a = true
      · rw [if_pos h]
        have hk : key b < key a := by rw [hlt] at h; exact of_decide_eq_true h
        exact ⟨le_of_lt hk, le_refl _⟩
      · rw [if_neg h]
        have hk : ¬ key b < key a := by rw [hlt] at h; simpa using h
        exact ⟨le_refl _, by omega⟩
    rw [hstep]
    constructor
    · rcases List.mem_cons.mp ihmem with hh | hm
      · rw [hh]
        rcases hfmem with hfa | hfb
        · rw [hfa]; exact List.mem_cons_self _ _
        · rw [hfb]; exact List.mem_cons_of_mem _ (List.mem_cons_self _ _)
      · exact List.mem_cons_of_mem _ (List.mem_cons_of_mem _ hm)
    · intro x hx
      have hmin0 := ihmin _ (List.mem_cons_self _ _)
      rcases List.mem_cons.mp hx with hxa | hx'
      · rw [hxa]
        exact le_trans hmin0 hfkey.1
      · rcases List.mem_cons.mp hx' with hxb | hx''
        · rw [hxb]
          exact le_trans hmin0 hfkey.2
        · exact ihmin x (List.mem_cons_of_mem _ hx'')

/-- C7: the most-relevant-card selection returns, in order of precedence: an
expired card with the smallest absolute days-until (most recently expired);
else an expiring-soon card with the smallest days-until; else (when the card
list is non-empty through an active card) the soonest-to-expire active card;
and the distinguished no-payment-method outcome for zero cards.  Day counts
are assumed numeric (the loader always emits numbers for these statuses). -/
theorem claim_C7 (cards : List CardAnalysis)
    (hnum : ∀ a ∈ cards, a.daysUntil ≠ none) :
    ((∃ a ∈ cards, a.status = "expired") →
      ∃ chosen, getCardStatus cards = CardStatusResult.expiredPick chosen ∧
        chosen ∈ cards ∧ chosen.status = "expired" ∧
        ∀ a ∈ cards, a.status = "expired" →
          |chosen.daysUntil.getD 0| ≤ |a.daysUntil.getD 0|) ∧
    ((¬ ∃ a ∈ cards, a.status = "expired") →
      (∃ a ∈ cards, a.status = "expiring-soon") →
      ∃ chosen, getCardStatus cards = CardStatusResult.expiringPick chosen ∧
        chosen ∈ cards ∧ chosen.status = "expiring-soon" ∧
        ∀ a ∈ cards, a.status = "expiring-soon" →
          chosen.daysUntil.getD 0 ≤ a.daysUntil.getD 0) ∧
    ((¬ ∃ a ∈ cards, a.status = "expired") →
      (¬ ∃ a ∈ cards, a.status = "expiring-soon") →
      (∃ a ∈ cards, a.status = "valid" ∨ a.status = "active") →
      ∃ chosen, getCardStatus cards = CardStatusResult.activePick chosen ∧
        chosen ∈ cards ∧ (chosen.status = "valid" ∨ chosen.status = "active") ∧
        ∀ a ∈ cards, (a.status = "valid" ∨ a.status = "active") →
          chosen.daysUntil.getD 0 ≤ a.daysUntil.getD 0) ∧
    (cards = [] → getCardStatus cards = CardStatusResult.noPayment) := by
  refine ⟨?_, ?_, ?_, ?_⟩
  · rintro ⟨a0, ha0, hs0⟩
    have hne : cards.filter (fun c => c.status == "expired") ≠ [] := by
      intro hnil
      rw [List.filter_eq_nil_iff] at hnil
      exact hnil a0 ha0 (by simp [hs0])
    cases hfe : cards.filter (fun c => c.status == "expired") with
    | nil => exact absurd hfe hne
    | cons e es =>
      have hgc : getCardStatus cards = CardStatusResult.expiredPick
          (jsReduce1 (fun recent card =>
            if jsAbsLt card.daysUntil recent.daysUntil then card else recent) e es) := by
        simp only [getCardStatus]
        rw [hfe]
      obtain ⟨hmem, hmin⟩ := jsReduce1_min
        (fun x y => jsAbsLt x.daysUntil y.daysUntil)
        (fun c => |c.daysUntil.getD 0|) (fun x y => rfl) e es
      rw [← hfe] at hmem
      refine ⟨_, hgc, (List.mem_filter.mp hmem).1, ?_, ?_⟩
      · have h2 := (List.mem_filter.mp hmem).2
        simpa using h2
      · intro a ha hsa
        refine hmin a ?_
        rw [← hfe]
        exact List.mem_filter.mpr ⟨ha, by simp [hsa]⟩
  · intro hex
    rintro ⟨a0, ha0, hs0⟩
    have hfe : cards.filter (fun c => c.status == "expired") = [] := by
      rw [List.filter_eq_nil_iff]
      intro a ha hp
      exact hex ⟨a, ha, by simpa using hp⟩
    have hne : cards.filter (fun c => c.status == "expiring-soon") ≠ [] := by
      intro hnil
      rw [List.filter_eq_nil_iff] at hnil
      exact hnil a0 ha0 (by simp [hs0])
    cases hfs : cards.filter (fun c => c.status == "expiring-soon") with
    | nil => exact absurd hfs hne
    | cons s ss =>
      have hgc : getCardStatus cards = CardStatusResult.expiringPick
          (jsReduce1 (fun soon card =>
            if jsLt card.daysUntil soon.daysUntil then card else soon) s ss) := by
        simp only [getCardStatus]
        rw [hfe, hfs]
      obtain ⟨hmem, hmin⟩ := jsReduce1_min
        (fun x y => jsLt x.daysUntil y.daysUntil)
        (fun c => c.daysUntil.getD 0) (fun x y => rfl) s ss
      rw [← hfs] at hmem
      refine ⟨_, hgc, (List.mem_filter.mp hmem).1, ?_, ?_⟩
      · have h2 := (List.mem_filter.mp hmem).2
        simpa using h2
      · intro a ha hsa
        refine hmin a ?_
        rw [← hfs]
        exact List.mem_filter.mpr ⟨ha, by simp [hsa]⟩
  · intro hex hsoon
    rintro ⟨a0, ha0, hs0⟩
    have hfe : cards.filter (fun c => c.status == "expired") = [] := by
      rw [List.filter_eq_nil_iff]
      intro a ha hp
      exact hex ⟨a, ha, by simpa using hp⟩
    have hfs : cards.filter (fun c => c.status == "expiring-soon") = [] := by
      rw [List.filter_eq_nil_iff]
      intro a ha hp
      exact hsoon ⟨a, ha, by simpa using hp⟩
    have hnn : cards ≠ [] := List.ne_nil_of_mem ha0
    have hlen : (cards.length == 0) = false := by
      rw [beq_eq_false_iff_ne]
      intro h
      exact hnn (List.length_eq_zero.mp h)
    have hne : cards.filter (fun c => c.status == "valid" || c.status == "active") ≠ [] := by
      intro hnil
      rw [List.filter_eq_nil_iff] at hnil
      refine hnil a0 ha0 ?_
      rcases hs0 with h | h <;> simp [h]
    cases hfa : cards.filter (fun c => c.status == "valid" || c.status == "active") with
    | nil => exact absurd hfa hne
    | cons v vs =>
      have hgc : getCardStatus cards = CardStatusResult.activePick
          (jsReduce1 (fun early card =>
            if jsLt card.daysUntil early.daysUntil then card else early) v vs) := by
        simp only [getCardStatus]
        rw [hfe, hfs, hlen, hfa]
        rfl
      obtain ⟨hmem, hmin⟩ := jsReduce1_min
        (fun x y => jsLt x.daysUntil y.daysUntil)
        (fun c => c.daysUntil.getD 0) (fun x y => rfl) v vs
      rw [← hfa] at hmem
      refine ⟨_, hgc, (List.mem_filter.mp hmem).1, ?_, ?_⟩
      · have h2 := (List.mem_filter.mp hmem).2
        simpa using h2
      · intro a ha hsa
        refine hmin a ?_
        rw [← hfa]
        refine List.mem_filter.mpr ⟨ha, ?_⟩
        rcases hsa with h | h <;> simp [h]
  · intro h
    subst h
    rfl

/-- C7 witness: with one card 40 days overdue and one expiring in 10 days,
the expired card is selected. -/
theorem claim_C7_witness :
    ∃ chosen, getCardStatus
        [⟨⟨none, none, none⟩, "expired", some (-40)⟩,
         ⟨⟨none, none, none⟩, "expiring-soon", some 10⟩] =
      CardStatusResult.expiredPick chosen ∧ chosen.status = "expired" := by
  obtain ⟨chosen, h1, -, h3, -⟩ := (claim_C7
    [⟨⟨none, none, none⟩, "expired", some (-40)⟩,
     ⟨⟨none, none, none⟩, "expiring-soon", some 10⟩] (by decide)).1 (by decide)
  exact ⟨chosen, h1, h3⟩

end CloverQuery
